import Mathlib

/-!
Admission webhook: the AdmissionReview handler and its decision functions

A shallow embedding of `main.go`: the HTTP handler `serve`, the two decision
functions `mutate` and `validate`, and the small part of `net/http` and of the
Kubernetes API types that they touch.

Conventions of the embedding.

* A Go `string` is a `String`; a Go `[]byte` is a list of bytes, and the
  conversion `[]byte(s)` is the UTF-8 encoding `stringBytes`.
* A Go `error` is represented by the text its `Error()` method returns.
* A Go pointer that may be nil is an `Option`.
* A function that may panic returns `Except String _`, the error being the
  panic value; reading a field through a nil pointer is the only panic of the
  program.
* The collaborators that live outside the program (the universal deserializer
  of the runtime scheme and `json.Marshal`) are fields of a `Codec` value that
  every function using them receives.
* Calls to the logger write to the log sink only; they are left out.
-/

namespace AdmissionWebhook

/-! ## Data model -/

/-- A Go byte slice. -/
abbrev Bytes := List UInt8

/-- The conversion from a Go string to its bytes. -/
def stringBytes (s : String) : Bytes := s.toUTF8.data.toList

/-- The type `schema.GroupVersionKind`. -/
structure GroupVersionKind where
  Group : String
  Version : String
  Kind : String
  deriving DecidableEq, Repr

/-- The type `metav1.GroupVersionResource`. -/
structure GroupVersionResource where
  Group : String
  Version : String
  Resource : String
  deriving DecidableEq, Repr

/-- The type `metav1.Status`; `Message` is the only field the program sets. -/
structure Status where
  Message : String
  deriving DecidableEq, Repr

/-- The type `runtime.RawExtension`. -/
structure RawExtension where
  Raw : Bytes
  deriving DecidableEq, Repr

/-- The type `admission.AdmissionRequest`, with the fields the program reads. -/
structure AdmissionRequest where
  UID : String
  Resource : GroupVersionResource
  Object : RawExtension
  deriving DecidableEq, Repr

/-- The type `admission.AdmissionResponse`, with the fields the program sets.
The Go zero value has an empty `UID`, `Allowed = false` and a nil `Result`. -/
structure AdmissionResponse where
  UID : String := ""
  Allowed : Bool := false
  Result : Option Status := none
  deriving DecidableEq, Repr

/-- The type `admission.AdmissionReview`. Its embedded `TypeMeta` is represented
by the group-version-kind it denotes, which is what `SetGroupVersionKind`
stores. -/
structure AdmissionReview where
  gvk : GroupVersionKind := ⟨"", "", ""⟩
  Request : Option AdmissionRequest := none
  Response : Option AdmissionResponse := none
  deriving DecidableEq, Repr

/-- The method `SetGroupVersionKind` of an `AdmissionReview`. -/
def AdmissionReview.SetGroupVersionKind (ar : AdmissionReview) (gvk : GroupVersionKind) :
    AdmissionReview :=
  { ar with gvk := gvk }

/-- Modelled from the spec: the declaration of `v1alpha1.MemcachedSpec` is not
among the sources. The spec describes a decodable shape with one required
numeric field, the size; it is a signed integer (`int32`), whose range plays
no part since the program only compares it with zero. -/
structure MemcachedSpec where
  Size : Int := 0
  deriving DecidableEq, Repr

/-- Modelled from the spec: the declaration of `v1alpha1.Memcached` is not among
the sources; `Spec` is its only field the program reads. -/
structure Memcached where
  Spec : MemcachedSpec := {}
  deriving DecidableEq, Repr

/-- A `runtime.Object` as the envelope decoder may return it: an
`*admission.AdmissionReview`, or a value of another registered type, of which
only the Go type name is kept. -/
inductive Object where
  | admissionReview (ar : AdmissionReview)
  | other (typeName : String)
  deriving DecidableEq, Repr

/-- The collaborators outside the program.

* `Decode body` is `deserializer.Decode(body, nil, nil)`: the decoded object and
  the group-version-kind read from the wire, or an error.
* `DecodeInto raw into` is `deserializer.Decode(raw, nil, &into)`: the object
  as the decoder left it, and the error if there is one.
* `Marshal obj` is `json.Marshal(obj)`. -/
structure Codec where
  Decode : Bytes → Except String (Object × GroupVersionKind)
  DecodeInto : Bytes → Memcached → Memcached × Option String
  Marshal : AdmissionReview → Except String Bytes

/-! ## The part of `net/http` the handler uses -/

/-- The type `http.Header`: a map from canonical keys to lists of values. -/
abbrev Header := List (String × List String)

/-- The method `Header.Get`: the first value of the key, or the empty string. -/
def Header.Get (h : Header) (key : String) : String :=
  match h.lookup key with
  | some (v :: _) => v
  | _ => ""

/-- The method `Header.Set`: the key now has exactly the one value. -/
def Header.Set (h : Header) (key value : String) : Header :=
  (key, [value]) :: h.filter (fun kv => kv.1 ≠ key)

/-- The part of `http.Request` the handler reads. `Body` is `none` for a nil
body, and otherwise holds what `ioutil.ReadAll(r.Body)` returns: the data read
and the read error, if any. -/
structure Request where
  Header : Header
  Body : Option (Bytes × Option String)

/-- The state of an `http.ResponseWriter`: the header map, the status code once
it has been written, and the body written so far. -/
structure ResponseWriter where
  header : Header
  status : Option Nat
  body : Bytes
  deriving DecidableEq, Repr

/-- A response writer as the server hands it to a handler. -/
def newResponseWriter : ResponseWriter := ⟨[], none, []⟩

/-- The method `WriteHeader`: the first status code written is the one sent. -/
def ResponseWriter.WriteHeader (w : ResponseWriter) (code : Nat) : ResponseWriter :=
  match w.status with
  | some _ => w
  | none => { w with status := some code }

/-- The method `Write`: writes the status 200 if none was written, then appends
to the body. -/
def ResponseWriter.Write (w : ResponseWriter) (b : Bytes) : ResponseWriter :=
  let w1 := w.WriteHeader 200
  { w1 with body := w1.body ++ b }

/-- The constant `http.StatusBadRequest`. -/
def StatusBadRequest : Nat := 400

/-- The constant `http.StatusInternalServerError`. -/
def StatusInternalServerError : Nat := 500

/-- The function `http.Error`: a plain-text reply with the given status code,
whose body is the error text followed by a newline. -/
def httpError (w : ResponseWriter) (error : String) (code : Nat) : ResponseWriter :=
  let h := (w.header.Set "Content-Type" "text/plain; charset=utf-8").Set
    "X-Content-Type-Options" "nosniff"
  let w1 := ({ w with header := h } : ResponseWriter).WriteHeader code
  w1.Write (stringBytes (error ++ "\n"))

/-! ## The program -/

/-- The panic value of a read through a nil pointer. -/
def nilDereference : String :=
  "runtime error: invalid memory address or nil pointer dereference"

/-- The type `admitv1Func`. The result is `.error` when the function panics,
`.ok none` when it returns nil. -/
abbrev admitv1Func := AdmissionReview → Except String (Option AdmissionResponse)

/-- The type `admitHandler`. -/
structure admitHandler where
  v1 : admitv1Func

/-- The function `AdmitHandler`. -/
def AdmitHandler (f : admitv1Func) : admitHandler := { v1 := f }

/-- The resource the webhook owns (`memcachedResource` in `mutate`). -/
def memcachedResource : GroupVersionResource :=
  { Group := "cache.example.com", Version := "v1alpha1", Resource := "memcacheds" }

/-- The function `mutate`. -/
def mutate (c : Codec) (ar : AdmissionReview) : Except String (Option AdmissionResponse) :=
  match ar.Request with
  | none => .error nilDereference
  | some request =>
    if request.Resource ≠ memcachedResource then
      .ok none
    else
      let raw := request.Object.Raw
      let memcached : Memcached := {}
      match c.DecodeInto raw memcached with
      | (_, some err) =>
        .ok (some { Result := some { Message := err } })
      | (memcached, none) =>
        if memcached.Spec.Size == 0 then
          .ok (some { Result := some { Message := "size needs to be > 0" } })
        else
          .ok (some { Allowed := true, Result := some { Message := "Testing mutation hook" } })

/-- The function `validate`. -/
def validate (_ar : AdmissionReview) : Except String (Option AdmissionResponse) :=
  .ok (some { Allowed := true, Result := some { Message := "Testing validating hook" } })

/-- A call the handler makes to a collaborator or to the decision function,
with its argument. -/
inductive Call where
  | decode (body : Bytes)
  | admitv1 (ar : AdmissionReview)
  | marshal (obj : AdmissionReview)
  deriving DecidableEq, Repr

/-- What a run of `serve` leaves behind: the response writer, the calls made in
order, and the panic value if the handler panicked instead of returning. -/
structure ServeResult where
  w : ResponseWriter
  calls : List Call
  panic : Option String
  deriving DecidableEq, Repr

/-- The request body as `serve` reads it: empty for a nil body or a failed
read. -/
def readBody (r : Request) : Bytes :=
  match r.Body with
  | none => []
  | some (data, none) => data
  | some (_, some _) => []

/-- The function `serve`; `adm` is its parameter `admit`. -/
def serve (c : Codec) (w : ResponseWriter) (r : Request) (adm : admitHandler) : ServeResult :=
  let body := readBody r
  -- verify the content type is accurate
  let contentType := r.Header.Get "Content-Type"
  if contentType ≠ "application/json" then
    { w := w, calls := [], panic := none }
  else
    match c.Decode body with
    | .error err =>
      let msg := "Request could not be decoded: " ++ err
      { w := httpError w msg StatusBadRequest, calls := [.decode body], panic := none }
    | .ok (.other _, _) =>
      { w := w, calls := [.decode body], panic := none }
    | .ok (.admissionReview requestedAdmissionReview, gvk) =>
      let responseAdmissionReview : AdmissionReview := {}
      let responseAdmissionReview := responseAdmissionReview.SetGroupVersionKind gvk
      match adm.v1 requestedAdmissionReview with
      | .error p =>
        { w := w, calls := [.decode body, .admitv1 requestedAdmissionReview], panic := some p }
      | .ok response =>
        let responseAdmissionReview := { responseAdmissionReview with Response := response }
        match responseAdmissionReview.Response, requestedAdmissionReview.Request with
        | some response, some request =>
          let responseObj :=
            { responseAdmissionReview with Response := some { response with UID := request.UID } }
          let calls := [.decode body, .admitv1 requestedAdmissionReview, .marshal responseObj]
          match c.Marshal responseObj with
          | .error err =>
            { w := httpError w err StatusInternalServerError, calls := calls, panic := none }
          | .ok respBytes =>
            let w1 : ResponseWriter :=
              { w with header := w.header.Set "Content-Type" "application/json" }
            { w := w1.Write respBytes, calls := calls, panic := none }
        | _, _ =>
          { w := w, calls := [.decode body, .admitv1 requestedAdmissionReview],
            panic := some nilDereference }

/-- The function `serveMutate`, the handler of `/mutate`. -/
def serveMutate (c : Codec) (w : ResponseWriter) (r : Request) : ServeResult :=
  serve c w r (AdmitHandler (mutate c))

/-- The function `serveValidate`, the handler of `/validate`. -/
def serveValidate (c : Codec) (w : ResponseWriter) (r : Request) : ServeResult :=
  serve c w r (AdmitHandler validate)

/-! ## Sample inputs

Concrete requests and codecs, on which the theorems below are instantiated. -/

/-- The wire group-version-kind of an `admission.k8s.io/v1` review. -/
def reviewGVK : GroupVersionKind :=
  { Group := "admission.k8s.io", Version := "v1", Kind := "AdmissionReview" }

/-- The resource `pods` of the core group, which the webhook does not own. -/
def podResource : GroupVersionResource :=
  { Group := "", Version := "v1", Resource := "pods" }

/-- A review whose request has the given target resource. -/
def sampleReview (resource : GroupVersionResource) : AdmissionReview :=
  { gvk := reviewGVK,
    Request := some { UID := "705ab4f5-6393-11e8-b7cc-42010a800002", Resource := resource,
                      Object := { Raw := [123, 125] } } }

/-- A codec whose envelope decoder yields `review` with `reviewGVK`, whose object
decoder stores `size` in the object and reports `err`, and whose encoder
yields the bytes of the text `ok`. -/
def sampleCodec (review : AdmissionReview) (size : Int) (err : Option String) : Codec :=
  { Decode := fun _ => .ok (.admissionReview review, reviewGVK),
    DecodeInto := fun _ into => ({ into with Spec := { Size := size } }, err),
    Marshal := fun _ => .ok [111, 107] }

/-- A codec whose object decoder finds no size field: it leaves the object as
it was handed over and reports no error. -/
def sizelessCodec (review : AdmissionReview) : Codec :=
  { Decode := fun _ => .ok (.admissionReview review, reviewGVK),
    DecodeInto := fun _ into => (into, none),
    Marshal := fun _ => .ok [111, 107] }

/-- A codec whose envelope decoder rejects every body with the error `err`. -/
def rejectingCodec (err : String) : Codec :=
  { Decode := fun _ => .error err,
    DecodeInto := fun _ into => (into, none),
    Marshal := fun _ => .ok [111, 107] }

/-- A request with the given content type and body. -/
def sampleRequest (contentType : String) (body : Bytes) : Request :=
  { Header := [("Content-Type", [contentType])], Body := some (body, none) }

/-! ## Lemmas on the decision functions -/

/-- The body of `mutate` once the request pointer is known not to be nil. -/
theorem mutate_of_request (c : Codec) (ar : AdmissionReview) (request : AdmissionRequest)
    (hreq : ar.Request = some request) :
    mutate c ar =
      if request.Resource ≠ memcachedResource then .ok none
      else match c.DecodeInto request.Object.Raw {} with
        | (_, some err) => .ok (some { Result := some { Message := err } })
        | (memcached, none) =>
          if memcached.Spec.Size == 0 then
            .ok (some { Result := some { Message := "size needs to be > 0" } })
          else
            .ok (some { Allowed := true, Result := some { Message := "Testing mutation hook" } }) := by
  unfold mutate
  rw [hreq]

/-- For the owned resource and an object that decodes, `mutate` returns a
response, and it allows exactly when the size is not zero. -/
theorem mutate_owned_decoded (c : Codec) (ar : AdmissionReview) (request : AdmissionRequest)
    (memcached : Memcached) (hreq : ar.Request = some request)
    (hres : request.Resource = memcachedResource)
    (hdec : c.DecodeInto request.Object.Raw {} = (memcached, none)) :
    mutate c ar =
      if memcached.Spec.Size = 0 then
        .ok (some { Result := some { Message := "size needs to be > 0" } })
      else
        .ok (some { Allowed := true, Result := some { Message := "Testing mutation hook" } }) := by
  rw [mutate_of_request c ar request hreq, hdec]
  simp [hres]

/-- For the owned resource and an object that fails to decode, `mutate` returns
the decode error in a response that does not allow. -/
theorem mutate_owned_undecoded (c : Codec) (ar : AdmissionReview) (request : AdmissionRequest)
    (memcached : Memcached) (err : String) (hreq : ar.Request = some request)
    (hres : request.Resource = memcachedResource)
    (hdec : c.DecodeInto request.Object.Raw {} = (memcached, some err)) :
    mutate c ar = .ok (some { Result := some { Message := err } }) := by
  rw [mutate_of_request c ar request hreq, hdec]
  simp [hres]

/-- For a resource other than the owned one, `mutate` returns nil. -/
theorem mutate_foreign (c : Codec) (ar : AdmissionReview) (request : AdmissionRequest)
    (hreq : ar.Request = some request) (hres : request.Resource ≠ memcachedResource) :
    mutate c ar = .ok none := by
  rw [mutate_of_request c ar request hreq]
  simp [hres]

/-! ## The decision functions -/

/-- C3: for a review whose request resource is cache.example.com/v1alpha1/memcacheds
and whose raw object decodes to a Memcached with `Spec.Size > 0`, `mutate`
returns a response with `Allowed = true`. -/
theorem mutate_allows_positive_size (c : Codec) (ar : AdmissionReview)
    (request : AdmissionRequest) (memcached : Memcached)
    (hreq : ar.Request = some request)
    (hres : request.Resource = memcachedResource)
    (hdec : c.DecodeInto request.Object.Raw {} = (memcached, none))
    (hsize : 0 < memcached.Spec.Size) :
    ∃ resp : AdmissionResponse, mutate c ar = .ok (some resp) ∧ resp.Allowed = true := by
  refine ⟨{ Allowed := true, Result := some { Message := "Testing mutation hook" } }, ?_, rfl⟩
  rw [mutate_owned_decoded c ar request memcached hreq hres hdec]
  have hne : memcached.Spec.Size ≠ 0 := by omega
  simp [hne]

/-- Witness of C3: a review for the owned resource whose object decodes with
size 3. -/
theorem mutate_allows_positive_size_witness :
    (sampleReview memcachedResource).Request =
        some { UID := "705ab4f5-6393-11e8-b7cc-42010a800002", Resource := memcachedResource,
               Object := { Raw := [123, 125] } } ∧
      (0 : Int) < 3 ∧
      ∃ resp : AdmissionResponse,
        mutate (sampleCodec (sampleReview memcachedResource) 3 none)
            (sampleReview memcachedResource) = .ok (some resp) ∧
          resp.Allowed = true :=
  ⟨rfl, by decide,
    mutate_allows_positive_size (sampleCodec (sampleReview memcachedResource) 3 none)
      (sampleReview memcachedResource) _ { Spec := { Size := 3 } } rfl rfl rfl (by decide)⟩

/-- C4: for a review for the owned resource whose raw object decodes to a
Memcached with `Spec.Size = 0` (which is also what a payload without a size
field decodes to, the object starting from the zero value), `mutate` returns a
response with `Allowed = false` and the message "size needs to be > 0", which
mentions "size". -/
theorem mutate_denies_zero_size (c : Codec) (ar : AdmissionReview)
    (request : AdmissionRequest) (memcached : Memcached)
    (hreq : ar.Request = some request)
    (hres : request.Resource = memcachedResource)
    (hdec : c.DecodeInto request.Object.Raw {} = (memcached, none))
    (hsize : memcached.Spec.Size = 0) :
    ∃ resp : AdmissionResponse, mutate c ar = .ok (some resp) ∧ resp.Allowed = false ∧
      resp.Result = some { Message := "size needs to be > 0" } ∧
      "size".toList <:+: "size needs to be > 0".toList := by
  refine ⟨{ Result := some { Message := "size needs to be > 0" } }, ?_, rfl, rfl, by decide⟩
  rw [mutate_owned_decoded c ar request memcached hreq hres hdec]
  simp [hsize]

/-- Witness of C4: a review for the owned resource whose object has no size
field, so that the decoder leaves the zero value in place. -/
theorem mutate_denies_zero_size_witness :
    (sizelessCodec (sampleReview memcachedResource)).DecodeInto [123, 125] {} = ({}, none) ∧
      ({} : Memcached).Spec.Size = 0 ∧
      ∃ resp : AdmissionResponse,
        mutate (sizelessCodec (sampleReview memcachedResource))
            (sampleReview memcachedResource) = .ok (some resp) ∧
          resp.Allowed = false ∧
          resp.Result = some { Message := "size needs to be > 0" } ∧
          "size".toList <:+: "size needs to be > 0".toList :=
  ⟨rfl, rfl,
    mutate_denies_zero_size (sizelessCodec (sampleReview memcachedResource))
      (sampleReview memcachedResource) _ {} rfl rfl rfl rfl⟩

/-- C5, the code at a negative size: for the owned resource and an object that
decodes with size -1, `mutate` returns `Allowed = true`, where the claim (and
the message "size needs to be > 0" of the code itself) asks for a denial. -/
theorem mutate_allows_negative_size :
    (sampleReview memcachedResource).Request =
        some { UID := "705ab4f5-6393-11e8-b7cc-42010a800002", Resource := memcachedResource,
               Object := { Raw := [123, 125] } } ∧
      (sampleCodec (sampleReview memcachedResource) (-1) none).DecodeInto [123, 125] {} =
        ({ Spec := { Size := -1 } }, none) ∧
      ¬ (0 : Int) < -1 ∧
      mutate (sampleCodec (sampleReview memcachedResource) (-1) none)
          (sampleReview memcachedResource) =
        .ok (some { Allowed := true, Result := some { Message := "Testing mutation hook" } }) :=
  ⟨rfl, rfl, by decide, rfl⟩

/-- C6: for a review whose request resource differs from
cache.example.com/v1alpha1/memcacheds in its group, its version or its resource
name, `mutate` returns nil, hence no response with `Allowed = true`, whatever
the raw object and the decoders are. -/
theorem mutate_foreign_resource_returns_nil (c : Codec) (ar : AdmissionReview)
    (request : AdmissionRequest)
    (hreq : ar.Request = some request)
    (hres : request.Resource.Group ≠ "cache.example.com" ∨
      request.Resource.Version ≠ "v1alpha1" ∨ request.Resource.Resource ≠ "memcacheds") :
    mutate c ar = .ok none ∧
      ¬ ∃ resp : AdmissionResponse, mutate c ar = .ok (some resp) ∧ resp.Allowed = true := by
  have hne : request.Resource ≠ memcachedResource := by
    intro h
    rw [h] at hres
    simp [memcachedResource] at hres
  have hnil := mutate_foreign c ar request hreq hne
  refine ⟨hnil, ?_⟩
  rintro ⟨resp, h, _⟩
  rw [hnil] at h
  cases h

/-- Witness of C6: a review for the resource `pods`, with an object decoder that
would report size 3. -/
theorem mutate_foreign_resource_returns_nil_witness :
    (sampleReview podResource).Request =
        some { UID := "705ab4f5-6393-11e8-b7cc-42010a800002", Resource := podResource,
               Object := { Raw := [123, 125] } } ∧
      podResource.Group ≠ "cache.example.com" ∧
      mutate (sampleCodec (sampleReview podResource) 3 none) (sampleReview podResource) =
        .ok none ∧
      ¬ ∃ resp : AdmissionResponse,
        mutate (sampleCodec (sampleReview podResource) 3 none) (sampleReview podResource) =
          .ok (some resp) ∧ resp.Allowed = true :=
  ⟨rfl, by decide,
    mutate_foreign_resource_returns_nil (sampleCodec (sampleReview podResource) 3 none)
      (sampleReview podResource) _ rfl (Or.inl (by decide))⟩

/-- C7: for a review for the owned resource whose raw object fails to decode,
`mutate` returns a response (not nil) with `Allowed = false` whose
`Result.Message` is the text of the decode error; this holds whatever the
decoder left in the object, so the size plays no part. -/
theorem mutate_decode_failure_denies (c : Codec) (ar : AdmissionReview)
    (request : AdmissionRequest) (memcached : Memcached) (err : String)
    (hreq : ar.Request = some request)
    (hres : request.Resource = memcachedResource)
    (hdec : c.DecodeInto request.Object.Raw {} = (memcached, some err)) :
    ∃ resp : AdmissionResponse, mutate c ar = .ok (some resp) ∧ resp.Allowed = false ∧
      resp.Result = some { Message := err } :=
  ⟨{ Result := some { Message := err } },
    mutate_owned_undecoded c ar request memcached err hreq hres hdec, rfl, rfl⟩

/-- Witness of C7: the object decoder reports an error after having stored the
size 3; the response carries the error and not the verdict on the size. -/
theorem mutate_decode_failure_denies_witness :
    (sampleCodec (sampleReview memcachedResource) 3
        (some "json: cannot unmarshal string into Go value")).DecodeInto [123, 125] {} =
        ({ Spec := { Size := 3 } }, some "json: cannot unmarshal string into Go value") ∧
      ∃ resp : AdmissionResponse,
        mutate (sampleCodec (sampleReview memcachedResource) 3
            (some "json: cannot unmarshal string into Go value"))
            (sampleReview memcachedResource) = .ok (some resp) ∧
          resp.Allowed = false ∧
          resp.Result = some { Message := "json: cannot unmarshal string into Go value" } :=
  ⟨rfl,
    mutate_decode_failure_denies
      (sampleCodec (sampleReview memcachedResource) 3
        (some "json: cannot unmarshal string into Go value"))
      (sampleReview memcachedResource) _ { Spec := { Size := 3 } } _ rfl rfl rfl⟩

/-- C8: `validate` returns, for every review, a response (not nil) with
`Allowed = true`, and the same one for every two reviews: it is a constant
function of its argument. -/
theorem validate_always_allows (ar ar' : AdmissionReview) :
    (∃ resp : AdmissionResponse, validate ar = .ok (some resp) ∧ resp.Allowed = true) ∧
      validate ar = validate ar' :=
  ⟨⟨{ Allowed := true, Result := some { Message := "Testing validating hook" } }, rfl, rfl⟩, rfl⟩

/-! ## Lemmas on the handler -/

/-- The bytes of a concatenation are the concatenation of the bytes. -/
theorem stringBytes_append (a b : String) :
    stringBytes (a ++ b) = stringBytes a ++ stringBytes b := by
  simp [stringBytes, String.toUTF8]

/-- The bytes of the newline that `http.Error` appends. -/
theorem stringBytes_newline : stringBytes "\n" = [10] := by decide

/-- On a writer without a status, `http.Error` writes the given status. -/
theorem httpError_status (w : ResponseWriter) (error : String) (code : Nat)
    (hw : w.status = none) : (httpError w error code).status = some code := by
  simp [httpError, ResponseWriter.Write, ResponseWriter.WriteHeader, hw]

/-- The body after `http.Error`: the error text and a newline are appended. -/
theorem httpError_body (w : ResponseWriter) (error : String) (code : Nat) :
    (httpError w error code).body = w.body ++ (stringBytes error ++ [10]) := by
  unfold httpError ResponseWriter.Write ResponseWriter.WriteHeader
  rw [stringBytes_append, stringBytes_newline]
  cases w.status <;> rfl

/-- The handler when the content type is not `application/json`. -/
theorem serve_of_content_type (c : Codec) (w : ResponseWriter) (r : Request)
    (adm : admitHandler) (hct : r.Header.Get "Content-Type" ≠ "application/json") :
    serve c w r adm = { w := w, calls := [], panic := none } := by
  simp [serve, hct]

/-- The handler when the envelope decoder reports an error. -/
theorem serve_of_decode_error (c : Codec) (w : ResponseWriter) (r : Request)
    (adm : admitHandler) (err : String)
    (hct : r.Header.Get "Content-Type" = "application/json")
    (hdec : c.Decode (readBody r) = .error err) :
    serve c w r adm =
      { w := httpError w ("Request could not be decoded: " ++ err) StatusBadRequest,
        calls := [.decode (readBody r)], panic := none } := by
  simp [serve, hct, hdec]

/-- The handler when the decision function returns a response for a review
whose request is present: the response is put in an envelope with the decoder's
group-version-kind, stamped with the request's UID, and handed to the encoder;
the reply is 200 with the encoded envelope, or 500 if the encoder fails. -/
theorem serve_of_response (c : Codec) (w : ResponseWriter) (r : Request)
    (adm : admitHandler) (ar : AdmissionReview) (gvk : GroupVersionKind)
    (request : AdmissionRequest) (response : AdmissionResponse)
    (hct : r.Header.Get "Content-Type" = "application/json")
    (hdec : c.Decode (readBody r) = .ok (.admissionReview ar, gvk))
    (hreq : ar.Request = some request)
    (hadm : adm.v1 ar = .ok (some response)) :
    serve c w r adm =
      { w :=
          match c.Marshal { gvk := gvk, Response := some { response with UID := request.UID } } with
          | .error err => httpError w err StatusInternalServerError
          | .ok respBytes =>
            ({ w with header := w.header.Set "Content-Type" "application/json" } :
              ResponseWriter).Write respBytes,
        calls := [.decode (readBody r), .admitv1 ar,
          .marshal { gvk := gvk, Response := some { response with UID := request.UID } }],
        panic := none } := by
  simp only [serve, hct, hdec, hadm, hreq, AdmissionReview.SetGroupVersionKind, ne_eq,
    not_true_eq_false, if_false]
  cases c.Marshal { gvk := gvk, Response := some { response with UID := request.UID } } <;> rfl

/-- The handler when the decision function returns nil: the write of the UID
through the nil response panics, and nothing has been written. -/
theorem serve_of_nil_response (c : Codec) (w : ResponseWriter) (r : Request)
    (adm : admitHandler) (ar : AdmissionReview) (gvk : GroupVersionKind)
    (hct : r.Header.Get "Content-Type" = "application/json")
    (hdec : c.Decode (readBody r) = .ok (.admissionReview ar, gvk))
    (hadm : adm.v1 ar = .ok none) :
    serve c w r adm =
      { w := w, calls := [.decode (readBody r), .admitv1 ar], panic := some nilDereference } := by
  simp [serve, hct, hdec, hadm, AdmissionReview.SetGroupVersionKind]

/-- The handler of `/mutate` on a review for a resource other than the owned one:
it panics after the call to `mutate`, and the response writer is untouched. -/
theorem serveMutate_of_foreign (c : Codec) (w : ResponseWriter) (r : Request)
    (ar : AdmissionReview) (gvk : GroupVersionKind) (request : AdmissionRequest)
    (hct : r.Header.Get "Content-Type" = "application/json")
    (hdec : c.Decode (readBody r) = .ok (.admissionReview ar, gvk))
    (hreq : ar.Request = some request) (hres : request.Resource ≠ memcachedResource) :
    serveMutate c w r =
      { w := w, calls := [.decode (readBody r), .admitv1 ar], panic := some nilDereference } :=
  serve_of_nil_response c w r (AdmitHandler (mutate c)) ar gvk hct hdec
    (mutate_foreign c ar request hreq hres)

/-- For the owned resource, `mutate` returns a response, not nil. -/
theorem mutate_owned_responds (c : Codec) (ar : AdmissionReview) (request : AdmissionRequest)
    (hreq : ar.Request = some request) (hres : request.Resource = memcachedResource) :
    ∃ response : AdmissionResponse, mutate c ar = .ok (some response) := by
  rcases hd : c.DecodeInto request.Object.Raw {} with ⟨memcached, _ | err⟩
  · rw [mutate_owned_decoded c ar request memcached hreq hres hd]
    by_cases hz : memcached.Spec.Size = 0
    · exact ⟨_, if_pos hz⟩
    · exact ⟨_, if_neg hz⟩
  · exact ⟨_, mutate_owned_undecoded c ar request memcached err hreq hres hd⟩

/-! ## The handler -/

/-- C1, as amended: for every request with content type `application/json` whose
body decodes to an AdmissionReview with a request, handled by `serve` with
`validate`, or with `mutate` when the request resource is the owned one, the
handler builds one response envelope, hands it to the encoder and answers with
its encoding (or with 500 if the encoder fails); the group-version-kind of that
envelope is the one the decoder reported, and the UID of its response is the
UID of the request. -/
theorem serve_response_correlated (c : Codec) (w : ResponseWriter) (r : Request)
    (adm : admitHandler) (ar : AdmissionReview) (gvk : GroupVersionKind)
    (request : AdmissionRequest)
    (hct : r.Header.Get "Content-Type" = "application/json")
    (hdec : c.Decode (readBody r) = .ok (.admissionReview ar, gvk))
    (hreq : ar.Request = some request)
    (hadm : adm = AdmitHandler validate ∨
      (adm = AdmitHandler (mutate c) ∧ request.Resource = memcachedResource)) :
    ∃ (env : AdmissionReview) (resp : AdmissionResponse),
      (serve c w r adm).calls = [.decode (readBody r), .admitv1 ar, .marshal env] ∧
      (serve c w r adm).panic = none ∧
      (serve c w r adm).w =
        (match c.Marshal env with
          | .error err => httpError w err StatusInternalServerError
          | .ok respBytes =>
            ({ w with header := w.header.Set "Content-Type" "application/json" } :
              ResponseWriter).Write respBytes) ∧
      env.gvk = gvk ∧ env.Response = some resp ∧ resp.UID = request.UID := by
  have hresp : ∃ response : AdmissionResponse, adm.v1 ar = .ok (some response) := by
    rcases hadm with h | ⟨h, hres⟩
    · subst h
      exact ⟨_, rfl⟩
    · subst h
      exact mutate_owned_responds c ar request hreq hres
  obtain ⟨response, hresp⟩ := hresp
  rw [serve_of_response c w r adm ar gvk request response hct hdec hreq hresp]
  exact ⟨_, _, rfl, rfl, rfl, rfl, rfl, rfl⟩

/-- Witness of C1: a review for the owned resource with size 3, sent to
`/mutate`. -/
theorem serve_response_correlated_witness :
    (sampleRequest "application/json" [123, 125]).Header.Get "Content-Type" =
        "application/json" ∧
      (sampleReview memcachedResource).Request =
        some { UID := "705ab4f5-6393-11e8-b7cc-42010a800002", Resource := memcachedResource,
               Object := { Raw := [123, 125] } } ∧
      ∃ (env : AdmissionReview) (resp : AdmissionResponse),
        (serve (sampleCodec (sampleReview memcachedResource) 3 none) newResponseWriter
            (sampleRequest "application/json" [123, 125])
            (AdmitHandler (mutate (sampleCodec (sampleReview memcachedResource) 3 none)))).calls =
          [.decode [123, 125], .admitv1 (sampleReview memcachedResource), .marshal env] ∧
        (serve (sampleCodec (sampleReview memcachedResource) 3 none) newResponseWriter
            (sampleRequest "application/json" [123, 125])
            (AdmitHandler (mutate (sampleCodec (sampleReview memcachedResource) 3 none)))).panic =
          none ∧
        (serve (sampleCodec (sampleReview memcachedResource) 3 none) newResponseWriter
            (sampleRequest "application/json" [123, 125])
            (AdmitHandler (mutate (sampleCodec (sampleReview memcachedResource) 3 none)))).w =
          (match (sampleCodec (sampleReview memcachedResource) 3 none).Marshal env with
            | .error err => httpError newResponseWriter err StatusInternalServerError
            | .ok respBytes =>
              ({ newResponseWriter with
                  header := newResponseWriter.header.Set "Content-Type" "application/json" } :
                ResponseWriter).Write respBytes) ∧
        env.gvk = reviewGVK ∧ env.Response = some resp ∧
        resp.UID = "705ab4f5-6393-11e8-b7cc-42010a800002" :=
  ⟨by decide, rfl,
    serve_response_correlated (sampleCodec (sampleReview memcachedResource) 3 none)
      newResponseWriter (sampleRequest "application/json" [123, 125])
      (AdmitHandler (mutate (sampleCodec (sampleReview memcachedResource) 3 none)))
      (sampleReview memcachedResource) reviewGVK _ (by decide) rfl rfl (Or.inr ⟨rfl, rfl⟩)⟩

/-- C1, as stated, fails: a review for the resource `pods`, with a request and a
UID, sent to `/mutate` with content type `application/json`. The decision
function returns nil, the handler panics on the write of the UID, no envelope
reaches the encoder and nothing is written. -/
theorem serveMutate_foreign_resource_no_response :
    (sampleRequest "application/json" [123, 125]).Header.Get "Content-Type" =
        "application/json" ∧
      (sampleCodec (sampleReview podResource) 3 none).Decode
          (readBody (sampleRequest "application/json" [123, 125])) =
        .ok (.admissionReview (sampleReview podResource), reviewGVK) ∧
      (sampleReview podResource).Request =
        some { UID := "705ab4f5-6393-11e8-b7cc-42010a800002", Resource := podResource,
               Object := { Raw := [123, 125] } } ∧
      serveMutate (sampleCodec (sampleReview podResource) 3 none) newResponseWriter
          (sampleRequest "application/json" [123, 125]) =
        { w := { header := [], status := none, body := [] },
          calls := [.decode [123, 125], .admitv1 (sampleReview podResource)],
          panic := some nilDereference } :=
  ⟨by decide, rfl, rfl, by decide⟩

/-- C2, as amended: for every request to `/mutate` with content type
`application/json` whose body decodes to an AdmissionReview for the owned
resource, whose raw object fails to decode or decodes with size 0, and whose
response envelope the encoder serialises, `serve` returns without a panic
having written the status 200, the content type `application/json` and the
encoding of an envelope whose response has `Allowed = false`, a message and the
UID of the request. -/
theorem serveMutate_business_error_denies (c : Codec) (w : ResponseWriter) (r : Request)
    (ar : AdmissionReview) (gvk : GroupVersionKind) (request : AdmissionRequest)
    (memcached : Memcached) (encode : AdmissionReview → Bytes)
    (hct : r.Header.Get "Content-Type" = "application/json")
    (hdec : c.Decode (readBody r) = .ok (.admissionReview ar, gvk))
    (hreq : ar.Request = some request)
    (hres : request.Resource = memcachedResource)
    (hobj : (∃ err, c.DecodeInto request.Object.Raw {} = (memcached, some err)) ∨
      (c.DecodeInto request.Object.Raw {} = (memcached, none) ∧ memcached.Spec.Size = 0))
    (hm : ∀ obj, c.Marshal obj = .ok (encode obj))
    (hw : w.status = none) :
    ∃ (resp : AdmissionResponse) (message : String),
      resp.Allowed = false ∧ resp.Result = some { Message := message } ∧
      resp.UID = request.UID ∧
      serveMutate c w r =
        { w := { header := w.header.Set "Content-Type" "application/json", status := some 200,
                 body := w.body ++ encode { gvk := gvk, Response := some resp } },
          calls := [.decode (readBody r), .admitv1 ar,
            .marshal { gvk := gvk, Response := some resp }],
          panic := none } := by
  have hresp : ∃ message : String,
      mutate c ar = .ok (some { Result := some { Message := message } }) := by
    rcases hobj with ⟨err, hd⟩ | ⟨hd, hz⟩
    · exact ⟨err, mutate_owned_undecoded c ar request memcached err hreq hres hd⟩
    · refine ⟨"size needs to be > 0", ?_⟩
      rw [mutate_owned_decoded c ar request memcached hreq hres hd]
      exact if_pos hz
  obtain ⟨message, hresp⟩ := hresp
  refine ⟨{ UID := request.UID, Result := some { Message := message } }, message,
    rfl, rfl, rfl, ?_⟩
  unfold serveMutate
  rw [serve_of_response c w r (AdmitHandler (mutate c)) ar gvk request _ hct hdec hreq hresp, hm]
  simp [ResponseWriter.Write, ResponseWriter.WriteHeader, hw]

/-- Witness of C2: a review for the owned resource whose object decodes with
size 0, sent to `/mutate`. -/
theorem serveMutate_business_error_denies_witness :
    (sampleRequest "application/json" [123, 125]).Header.Get "Content-Type" =
        "application/json" ∧
      (sampleCodec (sampleReview memcachedResource) 0 none).DecodeInto [123, 125] {} =
        ({ Spec := { Size := 0 } }, none) ∧
      newResponseWriter.status = none ∧
      ∃ (resp : AdmissionResponse) (message : String),
        resp.Allowed = false ∧ resp.Result = some { Message := message } ∧
        resp.UID = "705ab4f5-6393-11e8-b7cc-42010a800002" ∧
        serveMutate (sampleCodec (sampleReview memcachedResource) 0 none) newResponseWriter
            (sampleRequest "application/json" [123, 125]) =
          { w := { header := newResponseWriter.header.Set "Content-Type" "application/json",
                   status := some 200,
                   body := newResponseWriter.body ++ [111, 107] },
            calls := [.decode [123, 125], .admitv1 (sampleReview memcachedResource),
              .marshal { gvk := reviewGVK, Response := some resp }],
            panic := none } :=
  ⟨by decide, rfl, rfl,
    serveMutate_business_error_denies (sampleCodec (sampleReview memcachedResource) 0 none)
      newResponseWriter (sampleRequest "application/json" [123, 125])
      (sampleReview memcachedResource) reviewGVK _ { Spec := { Size := 0 } }
      (fun _ => [111, 107]) (by decide) rfl rfl rfl (Or.inr ⟨rfl, rfl⟩) (fun _ => rfl) rfl⟩

/-- C2, as stated, fails on two of its three cases. For a review for the resource
`pods`, `/mutate` panics and writes neither a status nor a body. For a review
for the owned resource whose object decodes with the size -1, which is not
greater than zero, `/mutate` answers 200 with an envelope whose response has
`Allowed = true`. -/
theorem serveMutate_business_error_not_denied :
    ((serveMutate (sampleCodec (sampleReview podResource) 3 none) newResponseWriter
          (sampleRequest "application/json" [123, 125])).w.status = none ∧
        (serveMutate (sampleCodec (sampleReview podResource) 3 none) newResponseWriter
          (sampleRequest "application/json" [123, 125])).w.body = [] ∧
        (serveMutate (sampleCodec (sampleReview podResource) 3 none) newResponseWriter
          (sampleRequest "application/json" [123, 125])).panic = some nilDereference) ∧
      serveMutate (sampleCodec (sampleReview memcachedResource) (-1) none) newResponseWriter
          (sampleRequest "application/json" [123, 125]) =
        { w := { header := [("Content-Type", ["application/json"])], status := some 200,
                 body := [111, 107] },
          calls := [.decode [123, 125], .admitv1 (sampleReview memcachedResource),
            .marshal { gvk := reviewGVK,
                       Response := some { UID := "705ab4f5-6393-11e8-b7cc-42010a800002",
                                          Allowed := true,
                                          Result := some { Message := "Testing mutation hook" } } }],
          panic := none } :=
  ⟨⟨by decide, by decide, by decide⟩, by decide⟩

/-- C9: for every request with content type `application/json` whose body the
envelope decoder rejects, `serve` answers with the status 400 and a body that is
not empty and contains the text of the decode error; the only call made is the
one to the decoder, so the decision function is not invoked. -/
theorem serve_decode_error_bad_request (c : Codec) (w : ResponseWriter) (r : Request)
    (adm : admitHandler) (err : String)
    (hct : r.Header.Get "Content-Type" = "application/json")
    (hdec : c.Decode (readBody r) = .error err)
    (hw : w.status = none) :
    (serve c w r adm).w.status = some 400 ∧
      (serve c w r adm).w.body ≠ [] ∧
      stringBytes err <:+: (serve c w r adm).w.body ∧
      (serve c w r adm).w.body =
        w.body ++ (stringBytes ("Request could not be decoded: " ++ err) ++ [10]) ∧
      (serve c w r adm).calls = [.decode (readBody r)] ∧
      (∀ ar, Call.admitv1 ar ∉ (serve c w r adm).calls) ∧
      (serve c w r adm).panic = none := by
  rw [serve_of_decode_error c w r adm err hct hdec]
  refine ⟨httpError_status w _ _ hw, ?_, ?_, httpError_body w _ _, rfl, ?_, rfl⟩
  · rw [httpError_body]
    simp
  · rw [httpError_body, stringBytes_append]
    exact ⟨w.body ++ stringBytes "Request could not be decoded: ", [10], by simp⟩
  · intro ar h
    simp at h

/-- Witness of C9: a body the decoder rejects, sent with content type
`application/json` to `/mutate`. -/
theorem serve_decode_error_bad_request_witness :
    (sampleRequest "application/json" [110, 111]).Header.Get "Content-Type" =
        "application/json" ∧
      (rejectingCodec "invalid character").Decode
          (readBody (sampleRequest "application/json" [110, 111])) =
        .error "invalid character" ∧
      newResponseWriter.status = none ∧
      (serve (rejectingCodec "invalid character") newResponseWriter
          (sampleRequest "application/json" [110, 111])
          (AdmitHandler (mutate (rejectingCodec "invalid character")))).w.status = some 400 ∧
      (serve (rejectingCodec "invalid character") newResponseWriter
          (sampleRequest "application/json" [110, 111])
          (AdmitHandler (mutate (rejectingCodec "invalid character")))).w.body ≠ [] :=
  ⟨by decide, rfl, rfl,
    (serve_decode_error_bad_request (rejectingCodec "invalid character") newResponseWriter
      (sampleRequest "application/json" [110, 111])
      (AdmitHandler (mutate (rejectingCodec "invalid character"))) "invalid character"
      (by decide) rfl rfl).1,
    (serve_decode_error_bad_request (rejectingCodec "invalid character") newResponseWriter
      (sampleRequest "application/json" [110, 111])
      (AdmitHandler (mutate (rejectingCodec "invalid character"))) "invalid character"
      (by decide) rfl rfl).2.1⟩

/-- C10: for every request whose `Content-Type` header is not exactly
`application/json`, `serve` returns with the response writer as it received it
(no body, no status, no header written) and without any call to the envelope
decoder or to the decision function, whatever the body, the codec and the
decision function are. -/
theorem serve_wrong_content_type_silent (c : Codec) (w : ResponseWriter) (r : Request)
    (adm : admitHandler)
    (hct : r.Header.Get "Content-Type" ≠ "application/json") :
    serve c w r adm = { w := w, calls := [], panic := none } :=
  serve_of_content_type c w r adm hct

/-- Witness of C10: a request with content type `text/plain`, and a request
without a `Content-Type` header. -/
theorem serve_wrong_content_type_silent_witness :
    ((sampleRequest "text/plain" [123, 125]).Header.Get "Content-Type" ≠ "application/json" ∧
        serve (sampleCodec (sampleReview memcachedResource) 3 none) newResponseWriter
            (sampleRequest "text/plain" [123, 125])
            (AdmitHandler (mutate (sampleCodec (sampleReview memcachedResource) 3 none))) =
          { w := newResponseWriter, calls := [], panic := none }) ∧
      (({ Header := [], Body := none } : Request).Header.Get "Content-Type" ≠
          "application/json" ∧
        serve (sampleCodec (sampleReview memcachedResource) 3 none) newResponseWriter
            { Header := [], Body := none } (AdmitHandler validate) =
          { w := newResponseWriter, calls := [], panic := none }) :=
  ⟨⟨by decide,
      serve_wrong_content_type_silent (sampleCodec (sampleReview memcachedResource) 3 none)
        newResponseWriter (sampleRequest "text/plain" [123, 125])
        (AdmitHandler (mutate (sampleCodec (sampleReview memcachedResource) 3 none)))
        (by decide)⟩,
    ⟨by decide,
      serve_wrong_content_type_silent (sampleCodec (sampleReview memcachedResource) 3 none)
        newResponseWriter { Header := [], Body := none } (AdmitHandler validate) (by decide)⟩⟩

end AdmissionWebhook
